import Mathlib

/-!
Verification of the motu-avb-api client against its specification.

The development shallowly embeds the Rust sources: Rust String values are
lists of characters, machine integers are Nat or Int with explicit range
checks where the source parses or converts them, fallible code returns
Except, and a Rust panic (an index out of bounds or an unwrap of an error)
is modelled by a dedicated error constructor, documented at each use.
-/

namespace Motu

/-- Rust strings are modelled as lists of characters. -/
abbrev Str := List Char

/-- Splitting a string at every occurrence of a separator character, as
Rust str::split does: the result always has at least one element, and
splitting the empty string yields one empty segment. -/
def splitCh (c : Char) : Str → List Str
  | [] => [[]]
  | x :: xs =>
    let r := splitCh c xs
    if x = c then [] :: r else (x :: r.headD []) :: r.tail

/-- Joining segments with a separator character, as Rust slice::join does. -/
def joinCh (c : Char) : List Str → Str
  | [] => []
  | [s] => s
  | s :: r :: rs => s ++ c :: joinCh c (r :: rs)

theorem splitCh_ne_nil (c : Char) (l : Str) : splitCh c l ≠ [] := by
  cases l with
  | nil => simp [splitCh]
  | cons x xs => simp only [splitCh]; split <;> simp

theorem splitCh_cons_ex (c : Char) (l : Str) :
    ∃ s rest, splitCh c l = s :: rest := by
  rcases h : splitCh c l with _ | ⟨s, rest⟩
  · exact absurd h (splitCh_ne_nil c l)
  · exact ⟨s, rest, rfl⟩

theorem joinCh_splitCh (c : Char) (l : Str) : joinCh c (splitCh c l) = l := by
  induction l with
  | nil => rfl
  | cons x xs ih =>
    obtain ⟨s, rest, h⟩ := splitCh_cons_ex c xs
    rw [h] at ih
    simp only [splitCh, h]
    by_cases hx : x = c
    · subst hx
      simp only [if_pos rfl, joinCh, List.nil_append]
      rw [ih]
    · simp only [if_neg hx, List.headD_cons, List.tail_cons]
      cases rest with
      | nil => simp only [joinCh] at ih ⊢; rw [ih]
      | cons r rs =>
        simp only [joinCh] at ih ⊢
        rw [List.cons_append, ih]

/-- Splitting a string that does not contain the separator yields the whole
string as the single segment. -/
theorem splitCh_eq_single {c : Char} {l : Str} (h : c ∉ l) : splitCh c l = [l] := by
  induction l with
  | nil => rfl
  | cons x xs ih =>
    have hx : x ≠ c := fun he => h (he ▸ List.mem_cons_self x xs)
    have hxs : c ∉ xs := fun hm => h (List.mem_cons_of_mem x hm)
    simp only [splitCh, ih hxs, if_neg hx, List.headD_cons, List.tail_cons]

/-- Substring search: true when pat occurs contiguously inside the second list. -/
def containsSub (pat : Str) : Str → Bool
  | [] => pat.isEmpty
  | c :: cs => pat.isPrefixOf (c :: cs) || containsSub pat cs

/-- Model of the process-wide regex NAME_ESCAPE_MATCHER, (?i)(name), from
value.rs: it matches a key exactly when the key contains the four letters
name in any letter case. -/
def nameEscapeMatch (key : Str) : Bool :=
  containsSub ("name".data) (key.map Char.toLower)

/-- Model of BOOL_MATCHER.captures from value.rs. The regex bool:(.*) finds
the leftmost occurrence of the five characters bool: and the whole match
(capture group zero, which is what the source reads) extends from there to
the end of the line. Returns the whole match when the input matches. -/
def boolCapture (key : Str) : Option Str :=
  match key with
  | [] => none
  | c :: cs =>
    if ("bool:".data).isPrefixOf (c :: cs) then
      some (("bool:".data) ++ (List.drop 5 (c :: cs)).takeWhile (fun ch => ch ≠ '\n'))
    else boolCapture cs

/-- Accumulating decimal digit parser: fails on the first non-digit. -/
def digitsValAux (acc : Nat) : Str → Option Nat
  | [] => some acc
  | c :: cs => if c.isDigit then digitsValAux (acc * 10 + (c.toNat - 48)) cs else none

/-- Parsing a non-empty all-digit string into a natural number. -/
def parseDigits : Str → Option Nat
  | [] => none
  | l => digitsValAux 0 l

/-- Model of Rust str::parse for u32: an optional leading plus sign, then
at least one digit, with the value required to fit in 32 bits. -/
def parseU32 (s : Str) : Option Nat :=
  let t := match s with
    | '+' :: rest => rest
    | _ => s
  (parseDigits t).bind (fun n => if n < 4294967296 then some n else none)

/-- Model of Rust str::parse for i64: an optional sign, then at least one
digit, with the value required to fit in a signed 64-bit integer. -/
def parseI64 (s : Str) : Option Int :=
  match s with
  | '-' :: rest =>
    (parseDigits rest).bind (fun n =>
      if n ≤ 9223372036854775808 then some (-(n : Int)) else none)
  | '+' :: rest =>
    (parseDigits rest).bind (fun n =>
      if n ≤ 9223372036854775807 then some ((n : Int)) else none)
  | _ =>
    (parseDigits s).bind (fun n =>
      if n ≤ 9223372036854775807 then some ((n : Int)) else none)

/-- Model of Rust str::parse for i32. -/
def parseI32 (s : Str) : Option Int :=
  match s with
  | '-' :: rest =>
    (parseDigits rest).bind (fun n =>
      if n ≤ 2147483648 then some (-(n : Int)) else none)
  | '+' :: rest =>
    (parseDigits rest).bind (fun n =>
      if n ≤ 2147483647 then some ((n : Int)) else none)
  | _ =>
    (parseDigits s).bind (fun n =>
      if n ≤ 2147483647 then some ((n : Int)) else none)

/-- MEnum from value.rs: a selected value and the list of definitions. -/
structure MEnum where
  value : Int
  definitions : List (Int × Str)
deriving DecidableEq

/-- Value from value.rs. The Float payload keeps the f64 of the source; no
claim inspects a float, so its operations stay abstract. -/
inductive Value where
  | str (s : Str)
  | float (f : Float)
  | int (n : Int)
  | bool (b : Bool)
  | enum (e : MEnum)
  | pair (p : List Str)

/-- ValueError from value.rs. The panicked constructor models a Rust panic
(an out-of-bounds index while decoding the bare string enum, or a malformed
enum option with no equals sign, both of which abort the process in the
source rather than returning an error); it is kept separate from the
returned error variants. -/
inductive ValueError where
  | unableToParseInt
  | unableToParseFloat
  | noValue
  | wtf
  | parseIntError
  | panicked
deriving DecidableEq

/-- Parsing the enum option segments: the source splits each segment on the
equals sign, unwraps the integer parse of the first piece and takes the
second piece, panicking when either is missing. -/
def parseEnumDefs : List Str → Option (List (Int × Str))
  | [] => some []
  | f :: rest =>
    match splitCh '=' f with
    | v0 :: v1 :: _ =>
      match parseI64 v0 with
      | some k => (parseEnumDefs rest).map (fun ds => (k, v1) :: ds)
      | none => none
    | _ => none

/-- Value::decode from value.rs, lines 28 to 90, translated clause by
clause: only string payloads are decoded, the empty string and name-bearing
keys pass through, then the bool matcher is consulted on the KEY (as the
source does), then the string splits on the colon, with the enum arm and
the final pair arm. Failures of the enum option parser are panics in the
source and map to the panicked error here. -/
def Value.decode (self : Value) (key : Str) : Except ValueError Value :=
  match self with
  | .str s =>
    if s.isEmpty then .ok (.str s)
    else if nameEscapeMatch key then .ok (.str s)
    else
      match boolCapture key with
      | some m => .ok (.bool (m == "1".data))
      | none =>
        match splitCh ':' s with
        | [] => .ok (.str s)
        | first :: rest =>
          if first = "enum".data then
            match rest with
            | [] => .error .panicked
            | second :: rest2 =>
              match parseI64 second with
              | none => .error .parseIntError
              | some v =>
                match parseEnumDefs rest2 with
                | none => .error .panicked
                | some defs => .ok (.enum ⟨v, defs⟩)
          else .ok (.pair (first :: rest))
  | v => .ok v

/-- String::from for Value references, value.rs lines 136 to 147: the
Display form of each variant. Numbers and booleans use their decimal and
true/false renderings, which agree between Rust and Lean toString. -/
def valueToString : Value → Str
  | .str v => v
  | .float v => (toString v).data
  | .int v => (toString v).data
  | .bool v => (toString v).data
  | .enum v => (toString v.value).data
  | .pair v => joinCh ':' v

/-- Serialize for Value, value.rs lines 149 to 168, as the wire string each
variant produces: strings pass through, booleans become the bool:0 and
bool:1 micro-encoding, an enum serializes as its selected integer, a pair
rejoins with colons, and numbers render in decimal. -/
def Value.encode : Value → Str
  | .str v => v
  | .float v => (toString v).data
  | .int v => (toString v).data
  | .bool true => "bool:1".data
  | .bool false => "bool:0".data
  | .enum v => (toString v.value).data
  | .pair p => joinCh ':' p

/-- Composition used by the round-trip claims: decode a raw wire string
under a key, then encode the result; none when decoding fails. -/
def decodeThenEncode (raw key : Str) : Option Str :=
  match Value.decode (.str raw) key with
  | .ok v => some (Value.encode v)
  | .error _ => none

/-- C3: the code does not implement the claimed bool decoding. Evaluating
Value::decode on the string bool:1 under an ordinary non-name key yields
Pair of the two colon segments, not Bool true, because the source applies
the bool regex to the key instead of the value and compares the whole match
against the digit. The same holds for bool:0. -/
theorem c3_bool_decode_eval :
    Value.decode (.str ("bool:1".data)) ("ext/obank/0/ch/0/pad".data) =
      .ok (.pair [("bool".data), ("1".data)]) ∧
    Value.decode (.str ("bool:0".data)) ("ext/obank/0/ch/0/pad".data) =
      .ok (.pair [("bool".data), ("0".data)]) := by
  constructor <;> rfl

/-- C4 counterexample: decoding the single-segment string single under a
non-name, non-bool key returns Pair of one segment, not the original String
value unchanged as the claim states. -/
theorem c4_counterexample :
    Value.decode (.str ("single".data)) ("ext/obank/0/ch/0/pad".data) =
      .ok (.pair [("single".data)]) ∧
    Value.pair [("single".data)] ≠ Value.str ("single".data) :=
  ⟨rfl, fun h => Value.noConfusion h⟩

/-- C4 amended: under a key matching neither the name pattern nor the bool
pattern, a non-empty string without the colon delimiter (and not the bare
word enum) decodes to a single-element Pair holding the whole string; the
original String value is not returned. -/
theorem c4_single_segment_pair (s key : Str)
    (hne : s ≠ [])
    (hname : nameEscapeMatch key = false)
    (hbool : boolCapture key = none)
    (hcolon : ':' ∉ s)
    (henum : s ≠ "enum".data) :
    Value.decode (.str s) key = .ok (.pair [s]) := by
  have hsplit : splitCh ':' s = [s] := splitCh_eq_single hcolon
  have hemp : s.isEmpty = false := by
    cases s with
    | nil => exact absurd rfl hne
    | cons a l => rfl
  simp only [Value.decode, hemp, hname, hbool, hsplit, henum,
    Bool.false_eq_true, if_false, if_neg henum]

/-- Witness for the amended C4 theorem at a concrete input. -/
theorem c4_single_segment_pair_witness :
    Value.decode (.str ("single".data)) ("ext/obank/0/fader".data) =
      .ok (.pair [("single".data)]) :=
  c4_single_segment_pair _ _ (by decide) (by decide) (by decide) (by decide)
    (by decide)

/-- C5 counterexample: the round trip fails on a well-formed enum string,
which the claim does not exclude: the serializer writes an Enum as its
selected integer, so decode of enum:2:0=Off followed by encode yields the
two-character rendering of the integer, not the raw string. -/
theorem c5_counterexample :
    decodeThenEncode ("enum:2:0=Off".data) ("ext/obank/0/ch/0/pad".data) =
      some ("2".data) ∧
    ("2".data : Str) ≠ ("enum:2:0=Off".data : Str) := by
  exact ⟨by rfl, by decide⟩

/-- C5 amended: encode after decode reproduces the raw string for every key
the bool regex does not match and every raw string whose first colon
segment is not the literal word enum; name-bearing keys, the empty string
and all pair splits round-trip. -/
theorem c5_roundtrip (raw key : Str)
    (hbool : boolCapture key = none)
    (henum : (splitCh ':' raw).headD [] ≠ "enum".data) :
    decodeThenEncode raw key = some raw := by
  unfold decodeThenEncode
  simp only [Value.decode]
  by_cases hemp : raw.isEmpty
  · simp only [hemp, if_true]
    rfl
  · simp only [hemp, Bool.false_eq_true, if_false]
    by_cases hname : nameEscapeMatch key
    · simp only [hname, if_true]
      rfl
    · simp only [hname, Bool.false_eq_true, if_false, hbool]
      rcases h : splitCh ':' raw with _ | ⟨first, rest⟩
      · rfl
      · have hf : first ≠ "enum".data := by
          rw [h] at henum
          simpa using henum
        simp only [hf, if_neg hf]
        have : Value.encode (.pair (first :: rest)) = raw := by
          show joinCh ':' (first :: rest) = raw
          rw [← h, joinCh_splitCh]
        simp [this]

/-- Witness for the amended C5 round-trip theorem at a concrete input. -/
theorem c5_roundtrip_witness :
    decodeThenEncode ("a:b".data) ("ext/obank/0/fader".data) =
      some ("a:b".data) :=
  c5_roundtrip _ _ (by decide) (by decide)

/-! Model of definitions.rs: bank and channel structures, their update
routines and the build function. -/

/-- ParseError from definitions.rs. The panicked constructor models a Rust
panic (indexing entry zero of an empty segment slice in an update routine),
which aborts the process in the source rather than being returned. -/
inductive ParseError where
  | unableToParseInt
  | notEnoughDataInSegment
  | wtf
  | notAbleToParseBankType (s : Str)
  | parseIntError
  | valueError (e : ValueError)
  | uriParseError
  | panicked
deriving DecidableEq

/-- Decidable equality on Except values with decidable components. -/
instance {ε α : Type} [DecidableEq ε] [DecidableEq α] : DecidableEq (Except ε α) :=
  fun x y =>
    match x, y with
    | .ok a, .ok b =>
      if h : a = b then isTrue (by rw [h])
      else isFalse (fun hh => absurd (by cases hh; rfl) h)
    | .error a, .error b =>
      if h : a = b then isTrue (by rw [h])
      else isFalse (fun hh => absurd (by cases hh; rfl) h)
    | .ok _, .error _ => isFalse (fun hh => Except.noConfusion hh)
    | .error _, .ok _ => isFalse (fun hh => Except.noConfusion hh)

/-- ChannelBankType from definitions.rs. -/
inductive ChannelBankType where
  | input
  | output
deriving DecidableEq

/-- TryFrom of a string for ChannelBankType, definitions.rs lines 19 to 29. -/
def ChannelBankType.ofStr (s : Str) : Except ParseError ChannelBankType :=
  if s = "ibank".data then .ok .input
  else if s = "obank".data then .ok .output
  else .error (.notAbleToParseBankType s)

/-- TrimValue from definitions.rs. -/
structure TrimValue where
  trim : Int
  trim_range : Int × Int
deriving DecidableEq

/-- Default TrimValue, as produced by the derived Default in the source. -/
def defaultTrimValue : TrimValue := ⟨0, (0, 0)⟩

/-- Trim from definitions.rs: the mono or stereo variant of a trim. -/
inductive Trim where
  | mono (t : TrimValue)
  | stereo (t : TrimValue)
deriving DecidableEq

/-- ExtChannel from definitions.rs. -/
structure ExtChannel where
  index : Nat
  default_name : Option Str
  name : Option Str
  src : Option Str
  trim : Option Trim
  pad : Option Bool
  phase : Option Bool
  phantom_power : Option Bool
  connection : Option Bool
deriving DecidableEq

/-- ExtChannel with a given index and every other field defaulted, as
created by the or_insert calls in the source. -/
def defaultExtChannel (i : Nat) : ExtChannel :=
  ⟨i, none, none, none, none, none, none, none, none⟩

/-- ChannelBank from definitions.rs. The channel HashMap is modelled as a
function map, matching the extensional behaviour of a hash map. -/
structure ChannelBank where
  index : Nat
  name : Option Str
  t : ChannelBankType
  smux : Option Str
  num_channels : Nat
  max_channels : Nat
  user_channels : Nat
  currenty_active_channels : Nat
  channels : Nat → Option ExtChannel

/-- ChannelBank with a given index and type and every other field
defaulted, as created by the or_insert call in build. -/
def defaultChannelBank (i : Nat) (t : ChannelBankType) : ChannelBank :=
  ⟨i, none, t, none, 0, 0, 0, 0, fun _ => none⟩

/-- Modelled from the spec: the TryFrom conversion from a decoded Value to
an unsigned 32-bit channel-count field. The impl block is not under src
(definitions.rs calls value.try_into for u32 fields); per the spec the
count fields are set from the decoded numeric value, so an Int in unsigned
32-bit range converts and anything else is an error. -/
def valueToU32 : Value → Except ParseError Nat
  | .int n => if 0 ≤ n ∧ n < 4294967296 then .ok n.toNat else .error .unableToParseInt
  | _ => .error .unableToParseInt

/-- Modelled from the spec: the TryFrom conversion from a decoded Value to
a signed 32-bit trim value (impl not under src): an Int in signed 32-bit
range converts, anything else is an error. -/
def valueToI32 : Value → Except ParseError Int
  | .int n => if -2147483648 ≤ n ∧ n ≤ 2147483647 then .ok n else .error .unableToParseInt
  | _ => .error .unableToParseInt

/-- Modelled from the spec: the TryFrom conversion from a decoded Value to
a trim-range pair (impl not under src): a two-element Pair whose segments
parse as signed 32-bit integers converts, anything else is an error. -/
def valueToRange : Value → Except ParseError (Int × Int)
  | .pair [a, b] =>
    match parseI32 a, parseI32 b with
    | some x, some y => .ok (x, y)
    | _, _ => .error .unableToParseInt
  | _ => .error .unableToParseInt

/-- Modelled from the spec: the TryFrom conversion from a decoded Value to
a boolean flag field (impl not under src): per the spec the flag is coerced
from the decoded Bool or Int value. -/
def valueToBool : Value → Except ParseError Bool
  | .bool b => .ok b
  | .int n => .ok (n != 0)
  | _ => .error .wtf

/-- Modelled from the spec: the From conversion of a Value reference into
an optional string (impl not under src): the optional name fields are set
directly from the value's string form. -/
def valueToOptString (v : Value) : Option Str := some (valueToString v)

/-- set_mono_trim from definitions.rs lines 267 to 271: get_or_insert of a
default mono trim, then the value is written only when the variant is mono;
an existing stereo variant is left untouched. -/
def ExtChannel.set_mono_trim (c : ExtChannel) (val : Int) : ExtChannel :=
  match c.trim with
  | none => { c with trim := some (.mono { defaultTrimValue with trim := val }) }
  | some (.mono t) => { c with trim := some (.mono { t with trim := val }) }
  | some (.stereo _) => c

/-- set_mono_trim_range from definitions.rs lines 272 to 276. -/
def ExtChannel.set_mono_trim_range (c : ExtChannel) (val : Int × Int) : ExtChannel :=
  match c.trim with
  | none => { c with trim := some (.mono { defaultTrimValue with trim_range := val }) }
  | some (.mono t) => { c with trim := some (.mono { t with trim_range := val }) }
  | some (.stereo _) => c

/-- set_stereo_trim from definitions.rs lines 277 to 281. -/
def ExtChannel.set_stereo_trim (c : ExtChannel) (val : Int) : ExtChannel :=
  match c.trim with
  | none => { c with trim := some (.stereo { defaultTrimValue with trim := val }) }
  | some (.stereo t) => { c with trim := some (.stereo { t with trim := val }) }
  | some (.mono _) => c

/-- set_stereo_trim_range from definitions.rs lines 282 to 286. -/
def ExtChannel.set_stereo_trim_range (c : ExtChannel) (val : Int × Int) : ExtChannel :=
  match c.trim with
  | none => { c with trim := some (.stereo { defaultTrimValue with trim_range := val }) }
  | some (.stereo t) => { c with trim := some (.stereo { t with trim_range := val }) }
  | some (.mono _) => c

/-- ExtChannel::update from definitions.rs lines 247 to 263, dispatching on
the first key segment. The source routes the 48V and connection keys into
the phase field (lines 258 and 259); that is translated as written. An
empty key slice panics in the source on the key index. -/
def ExtChannel.update (c : ExtChannel) (key : List Str) (value : Value) :
    Except ParseError ExtChannel :=
  match key with
  | [] => .error .panicked
  | k0 :: _ =>
    if k0 = "defaultName".data then .ok { c with default_name := valueToOptString value }
    else if k0 = "name".data then .ok { c with name := valueToOptString value }
    else if k0 = "src".data then .ok { c with src := valueToOptString value }
    else if k0 = "trim".data then (valueToI32 value).map c.set_mono_trim
    else if k0 = "trimRange".data then (valueToRange value).map c.set_mono_trim_range
    else if k0 = "stereoTrim".data then (valueToI32 value).map c.set_stereo_trim
    else if k0 = "stereoTrimRange".data then (valueToRange value).map c.set_stereo_trim_range
    else if k0 = "pad".data then (valueToBool value).map (fun x => { c with pad := some x })
    else if k0 = "phase".data then (valueToBool value).map (fun x => { c with phase := some x })
    else if k0 = "48V".data then (valueToBool value).map (fun x => { c with phase := some x })
    else if k0 = "connection".data then (valueToBool value).map (fun x => { c with phase := some x })
    else .ok c

/-- ChannelBank::update from definitions.rs lines 97 to 121: scalar fields
dispatch on the first segment; the ch arm needs at least two further
segments, parses the channel index, creates the channel on first reference
and recurses into the channel update. An empty key slice panics in the
source on the key index. -/
def ChannelBank.update (b : ChannelBank) (key : List Str) (value : Value) :
    Except ParseError ChannelBank :=
  match key with
  | [] => .error .panicked
  | k0 :: rest =>
    if k0 = "name".data then .ok { b with name := some (valueToString value) }
    else if k0 = "numCh".data then (valueToU32 value).map (fun n => { b with num_channels := n })
    else if k0 = "maxCh".data then (valueToU32 value).map (fun n => { b with max_channels := n })
    else if k0 = "userCh".data then (valueToU32 value).map (fun n => { b with user_channels := n })
    else if k0 = "calcCh".data then
      (valueToU32 value).map (fun n => { b with currenty_active_channels := n })
    else if k0 = "smux".data then .ok { b with smux := some (valueToString value) }
    else if k0 = "ch".data then
      match rest with
      | i :: _ :: _ =>
        match parseU32 i with
        | none => .error .parseIntError
        | some idx =>
          let ch := (b.channels idx).getD (defaultExtChannel idx)
          (ch.update (rest.drop 1) value).map (fun cc =>
            { b with channels := fun n => if n = idx then some cc else b.channels n })
      | _ => .error .notEnoughDataInSegment
    else .ok b

/-- Hexadecimal digit test, RFC 3986 HEXDIG. -/
def isHexDig (c : Char) : Bool :=
  c.isDigit || ('a' ≤ c && c ≤ 'f') || ('A' ≤ c && c ≤ 'F')

/-- Character-level pchar test of RFC 3986 as uriparse enforces it on path
segments: unreserved characters, sub-delims, colon and at. The percent sign
is handled by the escape validator, not here. -/
def pcharOk (c : Char) : Bool :=
  c.isAlpha || c.isDigit ||
  c = '-' || c = '.' || c = '_' || c = '~' ||
  c = '!' || c = '$' || c = '&' || c = Char.ofNat 39 || c = '(' || c = ')' ||
  c = '*' || c = '+' || c = ',' || c = ';' || c = '=' ||
  c = ':' || c = '@'

/-- Characters allowed in the first segment of a no-scheme relative path:
pchar without the raw colon (RFC 3986 segment-nz-nc). -/
def pcharFirstOk (c : Char) : Bool := pcharOk c && c ≠ ':'

/-- Characters allowed in a query or fragment: pchar plus slash and
question mark. -/
def queryCharOk (c : Char) : Bool :=
  pcharOk c || c = '/' || c = '?'

/-- Percent-escape validation as uriparse performs it: every percent sign
must be followed by two hexadecimal digits. -/
def pctOk : Str → Bool
  | [] => true
  | '%' :: a :: b :: rest => isHexDig a && isHexDig b && pctOk rest
  | '%' :: _ => false
  | _ :: rest => pctOk rest

/-- Validation of one URI component run: the percent escapes are well
formed and every character is allowed or a percent sign (the hex digits of
an escape are alphanumeric, hence allowed by every set used here, so the
two checks together accept exactly the valid runs). -/
def validRun (allowed : Char → Bool) (s : Str) : Bool :=
  pctOk s && s.all (fun c => allowed c || c == '%')

/-- Character test for the end of the path part: false exactly at the
query and fragment delimiters. -/
def notQF (c : Char) : Bool := c ≠ '?' && c ≠ '#'

/-- Validation of the query-and-fragment remainder of a key (everything
from the first question mark or hash on), as uriparse validates it: after
a question mark the query runs to the first hash and the fragment follows;
after a hash everything is fragment; both use the query character set. -/
def uriQFOk : Str → Bool
  | [] => true
  | x :: r2 =>
    if x = '?' then
      validRun queryCharOk (r2.takeWhile (fun c => c ≠ '#')) &&
        (match r2.dropWhile (fun c => c ≠ '#') with
         | [] => true
         | _ :: fr => validRun queryCharOk fr)
    else validRun queryCharOk r2

/-- Leading-slash test on the path part. -/
def startsWithSlash : Str → Bool
  | '/' :: _ => true
  | _ => false

/-- Segmentation and validation of the path part of a key: a relative
path splits on the slash, its segments must be valid pchar runs, and the
first segment of a no-scheme relative reference may not contain a raw
colon. Keys using absolute-path, authority or scheme syntax (a leading
slash, or a raw colon in the first segment) are outside the modelled
fragment and conservatively report a parse error here; no theorem
quantifies over such keys. -/
def uriPathSegs (path : Str) : Except ParseError (List Str) :=
  if startsWithSlash path then .error .uriParseError
  else
    match splitCh '/' path with
    | [] => .error .uriParseError
    | s0 :: srest =>
      if validRun pcharFirstOk s0 && srest.all (fun s => validRun pcharOk s) then
        .ok (s0 :: srest)
      else .error .uriParseError

/-- Model of uriparse::URIReference::try_from followed by path().segments()
on a cache key, definitions.rs line 312 and device.rs line 96: the path
ends at the first question mark or hash (the query and fragment are split
off and their characters validated), and the path itself segments on the
slash with pchar and percent-escape validation per uriPathSegs. A key that
fails validation is a parse error, which the callers propagate or handle
exactly as the source does with URIParseError. -/
def uriSegments (ke : Str) : Except ParseError (List Str) :=
  if uriQFOk (ke.dropWhile notQF) then uriPathSegs (ke.takeWhile notQF)
  else .error .uriParseError

/-- A character of a list lands in one of its split segments. -/
theorem mem_splitCh {c0 sep : Char} {l : Str} (h : c0 ∈ l) (hne : c0 ≠ sep) :
    ∃ s ∈ splitCh sep l, c0 ∈ s := by
  induction l with
  | nil => exact absurd h (List.not_mem_nil c0)
  | cons x xs ih =>
    obtain ⟨s, rest, hsr⟩ := splitCh_cons_ex sep xs
    rcases List.mem_cons.mp h with rfl | hmem
    · refine ⟨c0 :: s, ?_, List.mem_cons_self c0 s⟩
      simp only [splitCh, hsr, if_neg hne, List.headD_cons, List.tail_cons]
      exact List.mem_cons_self _ _
    · obtain ⟨t, ht, hct⟩ := ih hmem
      rw [hsr] at ht
      by_cases hx : x = sep
      · refine ⟨t, ?_, hct⟩
        simp only [splitCh, hsr, if_pos hx]
        exact List.mem_cons_of_mem [] ht
      · rcases List.mem_cons.mp ht with rfl | htl
        · refine ⟨x :: t, ?_, List.mem_cons_of_mem x hct⟩
          simp only [splitCh, hsr, if_neg hx, List.headD_cons, List.tail_cons]
          exact List.mem_cons_self _ _
        · refine ⟨t, ?_, hct⟩
          simp only [splitCh, hsr, if_neg hx, List.headD_cons, List.tail_cons]
          exact List.mem_cons_of_mem _ htl

/-- A run containing a space fails validation whenever the allowed set
rejects the space. -/
theorem validRun_space (allowed : Char → Bool) (h : allowed ' ' = false)
    {s : Str} (hs : ' ' ∈ s) : validRun allowed s = false := by
  have hall : s.all (fun c => allowed c || c == '%') = false := by
    cases ha : s.all (fun c => allowed c || c == '%') with
    | false => rfl
    | true =>
      have := List.all_eq_true.mp ha ' ' hs
      simp [h] at this
  simp [validRun, hall]

/-- The head of a dropWhile result fails the predicate. -/
theorem dropWhile_head_false {p : Char → Bool} :
    ∀ {l : Str} {x : Char} {xs : Str}, l.dropWhile p = x :: xs → p x = false := by
  intro l
  induction l with
  | nil => intro x xs h; simp [List.dropWhile] at h
  | cons y ys ih =>
    intro x xs h
    rw [List.dropWhile_cons] at h
    by_cases hp : p y
    · simp only [hp, if_true] at h
      exact ih h
    · simp only [hp, if_false] at h
      cases h
      exact Bool.of_not_eq_true hp

/-- A space in the query-and-fragment remainder fails its validation. -/
theorem uriQFOk_space {ke : Str} (hs : ' ' ∈ ke.dropWhile notQF) :
    uriQFOk (ke.dropWhile notQF) = false := by
  rcases hr : ke.dropWhile notQF with _ | ⟨x, xs⟩
  · rw [hr] at hs; exact absurd hs (List.not_mem_nil _)
  · rw [hr] at hs
    have hx : notQF x = false := dropWhile_head_false hr
    have hxq : x = '?' ∨ x = '#' := by
      by_cases h1 : x = '?'
      · exact Or.inl h1
      · by_cases h2 : x = '#'
        · exact Or.inr h2
        · simp [notQF, h1, h2] at hx
    have hxs : ' ' ∈ xs := by
      rcases List.mem_cons.mp hs with rfl | hm
      · rcases hxq with h1 | h1 <;> simp at h1
      · exact hm
    rcases hxq with rfl | rfl
    · have hq : uriQFOk ('?' :: xs) =
          (validRun queryCharOk (xs.takeWhile (fun c => c ≠ '#')) &&
            (match xs.dropWhile (fun c => c ≠ '#') with
             | [] => true
             | _ :: fr => validRun queryCharOk fr)) := by
        simp [uriQFOk]
      rw [hq]
      have h2 : xs.takeWhile (fun c : Char => decide (c ≠ '#')) ++
          xs.dropWhile (fun c : Char => decide (c ≠ '#')) = xs :=
        List.takeWhile_append_dropWhile _ xs
      rcases List.mem_append.mp (by rw [h2]; exact hxs) with hin | hin
      · have hv := validRun_space queryCharOk (by decide) hin
        rw [hv, Bool.false_and]
      · rcases hd : xs.dropWhile (fun c : Char => decide (c ≠ '#')) with _ | ⟨y, fr⟩
        · rw [hd] at hin; exact absurd hin (List.not_mem_nil _)
        · rw [hd] at hin
          have hy : ¬(' ' = y) := by
            intro he
            have hhd := dropWhile_head_false hd
            rw [← he] at hhd
            simp at hhd
          have hfr : ' ' ∈ fr := by
            rcases List.mem_cons.mp hin with he | hm
            · exact absurd he hy
            · exact hm
          have hv := validRun_space queryCharOk (by decide) hfr
          show (validRun queryCharOk (xs.takeWhile (fun c => c ≠ '#')) &&
            validRun queryCharOk fr) = false
          rw [hv, Bool.and_false]
    · have hq : uriQFOk ('#' :: xs) = validRun queryCharOk xs := by
        simp [uriQFOk]
      rw [hq]
      exact validRun_space queryCharOk (by decide) hxs

/-- A space in the path part fails its segmentation. -/
theorem uriPathSegs_space {path : Str} (hs : ' ' ∈ path) :
    uriPathSegs path = .error .uriParseError := by
  obtain ⟨t, ht, hct⟩ := @mem_splitCh ' ' '/' path hs (by decide)
  obtain ⟨s0, srest, hsp⟩ := splitCh_cons_ex '/' path
  have hcond : (validRun pcharFirstOk s0 &&
      srest.all (fun s => validRun pcharOk s)) = false := by
    rw [hsp] at ht
    rcases List.mem_cons.mp ht with rfl | htl
    · have hv := validRun_space pcharFirstOk (by decide) hct
      simp only [hv, Bool.false_and]
    · have hrest : srest.all (fun s => validRun pcharOk s) = false := by
        cases ha : srest.all (fun s => validRun pcharOk s) with
        | false => rfl
        | true =>
          have h2 := List.all_eq_true.mp ha t htl
          rw [validRun_space pcharOk (by decide) hct] at h2
          exact Bool.noConfusion h2
      simp only [hrest, Bool.and_false]
  unfold uriPathSegs
  by_cases hss : startsWithSlash path = true
  · simp [hss]
  · simp only [Bool.not_eq_true] at hss
    simp only [hss, Bool.false_eq_true, if_false]
    rw [hsp]
    simp only [hcond, Bool.false_eq_true, if_false]

/-- A key containing a space never parses: uriparse rejects a raw space in
every URI component, and so does the model. -/
theorem uriSegments_space {ke : Str} (h : ' ' ∈ ke) :
    uriSegments ke = .error .uriParseError := by
  unfold uriSegments
  have h2 : ke.takeWhile notQF ++ ke.dropWhile notQF = ke :=
    List.takeWhile_append_dropWhile notQF ke
  rcases List.mem_append.mp (by rw [h2]; exact h) with hin | hin
  · rw [uriPathSegs_space hin]
    split <;> rfl
  · rw [uriQFOk_space hin]
    rfl

/-- The DashMap of banks keyed by index, modelled as a function map. -/
def Banks := Nat → Option ChannelBank

def emptyBanks : Banks := fun _ => none

/-- Loop body of build, definitions.rs lines 311 to 327: parse the key as
a URI reference (the question-mark operator makes a parse failure abort the
build), require more than two path segments with the second equal to the
prefix, parse the bank index (again fatal on failure), create the bank on
first reference and apply the per-entry update routine. -/
def applyEntry (pfx : Str) (m : Banks) (e : Str × Value) : Except ParseError Banks :=
  match uriSegments e.1 with
  | .error er => .error er
  | .ok segs =>
    match segs with
    | _ :: b :: c :: rest =>
      if b = pfx then
        match parseU32 c with
        | none => .error .parseIntError
        | some index =>
          match ChannelBankType.ofStr pfx with
          | .error er => .error er
          | .ok t =>
            let bank := (m index).getD (defaultChannelBank index t)
            match bank.update rest e.2 with
            | .error er => .error er
            | .ok bb => .ok (fun n => if n = index then some bb else m n)
      else .ok m
    | _ => .ok m

/-- Iteration of build over the cache entries, propagating the first
error, starting from a given bank map. -/
def buildGo (pfx : Str) (m : Banks) : List (Str × Value) → Except ParseError Banks
  | [] => .ok m
  | e :: es =>
    match applyEntry pfx m e with
    | .error er => .error er
    | .ok mm => buildGo pfx mm es

/-- build from definitions.rs lines 305 to 331. DashMap iteration order is
unspecified, so the cache contents are taken as an explicit entry list. -/
def build (pfx : Str) (cache : List (Str × Value)) : Except ParseError Banks :=
  buildGo pfx emptyBanks cache

/-- Replay of a sequence of Updates one at a time through the same
per-entry update routine that build uses, as the incremental-maintenance
path of the Model Projector does. -/
def replayUpdates (pfx : Str) (m : Banks) : List (Str × Value) → Except ParseError Banks
  | [] => .ok m
  | e :: es =>
    match applyEntry pfx m e with
    | .error er => .error er
    | .ok mm => replayUpdates pfx mm es

/-- Selector used by the C8 statement: the bank-index segment of a parsed
key when it has more than two segments and its second segment equals the
prefix, and none when build skips the entry. -/
def shapeSel (pfx : Str) (segs : List Str) : Option Str :=
  match segs with
  | _ :: b :: c :: _ => if b = pfx then some c else none
  | _ => none

/-- C8 counterexample: a single cache entry whose bank index segment is not
numeric makes the whole build return an error instead of being skipped, as
the question-mark operator on the index parse propagates the failure. -/
theorem c8_counterexample :
    build ("ibank".data) [(("ext/ibank/xx/name".data), .str ("A".data))] =
      .error .parseIntError := by
  rfl

/-- C8 amended: an entry whose key parses as a URI reference but whose path
does not match the prefix shape (too few segments or a second segment
different from the prefix) is skipped and seeding continues with the
remaining entries; but seeding is aborted with an error by an entry that
matches the prefix and whose bank index segment does not parse as a 32-bit
unsigned integer, and equally by a key that fails URI parsing altogether
(the third conjunct is stated for keys containing a space, which no URI
component admits). -/
theorem c8_skip_and_fatal (pfx ke : Str) (v : Value) (l : List (Str × Value)) (m : Banks) :
    (∀ segs, uriSegments ke = .ok segs → shapeSel pfx segs = none →
      buildGo pfx m ((ke, v) :: l) = buildGo pfx m l) ∧
    (∀ segs c, uriSegments ke = .ok segs → shapeSel pfx segs = some c →
      parseU32 c = none → buildGo pfx m ((ke, v) :: l) = .error .parseIntError) ∧
    (' ' ∈ ke → buildGo pfx m ((ke, v) :: l) = .error .uriParseError) := by
  refine ⟨?_, ?_, ?_⟩
  · intro segs hseg hsel
    have happ : applyEntry pfx m (ke, v) = .ok m := by
      unfold applyEntry
      dsimp only
      rw [hseg]
      unfold shapeSel at hsel
      rcases segs with _ | ⟨a, _ | ⟨b, _ | ⟨c2, rest⟩⟩⟩ <;> simp only [] at hsel ⊢
      split at hsel
      · exact absurd hsel (by simp)
      · simp [*]
    simp only [buildGo, happ]
  · intro segs c hseg hsel hpc
    have happ : applyEntry pfx m (ke, v) = .error .parseIntError := by
      unfold applyEntry
      dsimp only
      rw [hseg]
      unfold shapeSel at hsel
      rcases segs with _ | ⟨a, _ | ⟨b, _ | ⟨c2, rest⟩⟩⟩ <;> simp only [] at hsel ⊢
      · exact absurd hsel (by simp)
      · exact absurd hsel (by simp)
      · exact absurd hsel (by simp)
      · split at hsel
        · have hc : c2 = c := by injection hsel
          subst hc
          simp [*, hpc]
        · exact absurd hsel (by simp)
    simp only [buildGo, happ]
  · intro hsp
    have happ : applyEntry pfx m (ke, v) = .error .uriParseError := by
      unfold applyEntry
      dsimp only
      rw [uriSegments_space hsp]
    simp only [buildGo, happ]

/-- Witness for the amended C8 theorem: a wrong-prefix entry is skipped, a
non-numeric bank index under the right prefix is fatal, and a URI-invalid
key (one containing a space) is fatal with the URI parse error. -/
theorem c8_skip_and_fatal_witness :
    (buildGo ("ibank".data) emptyBanks [(("ext/obank/1/name".data), Value.str ("A".data))] =
      buildGo ("ibank".data) emptyBanks []) ∧
    (buildGo ("ibank".data) emptyBanks [(("ext/ibank/xx/name".data), Value.str ("A".data))] =
      .error .parseIntError) ∧
    (buildGo ("ibank".data) emptyBanks [(("a b/c/d".data), Value.str ("A".data))] =
      .error .uriParseError) :=
  ⟨(c8_skip_and_fatal ("ibank".data) ("ext/obank/1/name".data) (Value.str ("A".data))
      [] emptyBanks).1 [("ext".data), ("obank".data), ("1".data), ("name".data)]
      (by decide) (by decide),
   (c8_skip_and_fatal ("ibank".data) ("ext/ibank/xx/name".data) (Value.str ("A".data))
      [] emptyBanks).2.1 [("ext".data), ("ibank".data), ("xx".data), ("name".data)]
      ("xx".data) (by decide) (by decide) (by decide),
   (c8_skip_and_fatal ("ibank".data) ("a b/c/d".data) (Value.str ("A".data))
      [] emptyBanks).2.2 (by decide)⟩

/-- Witness helper: the kind (mono or stereo) of a trim option. -/
inductive TrimKind where
  | mono
  | stereo
deriving DecidableEq

/-- Kind observed on a channel trim field. -/
def trimKindOf : Option Trim → Option TrimKind
  | none => none
  | some (.mono _) => some .mono
  | some (.stereo _) => some .stereo

/-- Inversion helper for Except.map in the ok case. -/
theorem except_map_eq_ok {α β ε : Type} (f : α → β) (e : Except ε α) (b : β)
    (h : e.map f = .ok b) : ∃ a, e = .ok a ∧ f a = b := by
  cases e with
  | error er => simp [Except.map] at h
  | ok a => exact ⟨a, rfl, by simpa [Except.map] using h⟩

theorem trimKindOf_set_mono_trim (c : ExtChannel) (n : Int) (k : TrimKind)
    (h : trimKindOf c.trim = some k) :
    trimKindOf (c.set_mono_trim n).trim = some k := by
  rcases hc : c.trim with _ | ⟨t | t⟩
  · simp [hc, trimKindOf] at h
  · simp only [hc, trimKindOf, Option.some.injEq] at h
    simp [ExtChannel.set_mono_trim, hc, trimKindOf, h]
  · simp only [hc, trimKindOf, Option.some.injEq] at h
    simp [ExtChannel.set_mono_trim, hc, trimKindOf, h]

theorem trimKindOf_set_mono_trim_range (c : ExtChannel) (p : Int × Int) (k : TrimKind)
    (h : trimKindOf c.trim = some k) :
    trimKindOf (c.set_mono_trim_range p).trim = some k := by
  rcases hc : c.trim with _ | ⟨t | t⟩
  · simp [hc, trimKindOf] at h
  · simp only [hc, trimKindOf, Option.some.injEq] at h
    simp [ExtChannel.set_mono_trim_range, hc, trimKindOf, h]
  · simp only [hc, trimKindOf, Option.some.injEq] at h
    simp [ExtChannel.set_mono_trim_range, hc, trimKindOf, h]

theorem trimKindOf_set_stereo_trim (c : ExtChannel) (n : Int) (k : TrimKind)
    (h : trimKindOf c.trim = some k) :
    trimKindOf (c.set_stereo_trim n).trim = some k := by
  rcases hc : c.trim with _ | ⟨t | t⟩
  · simp [hc, trimKindOf] at h
  · simp only [hc, trimKindOf, Option.some.injEq] at h
    simp [ExtChannel.set_stereo_trim, hc, trimKindOf, h]
  · simp only [hc, trimKindOf, Option.some.injEq] at h
    simp [ExtChannel.set_stereo_trim, hc, trimKindOf, h]

theorem trimKindOf_set_stereo_trim_range (c : ExtChannel) (p : Int × Int) (k : TrimKind)
    (h : trimKindOf c.trim = some k) :
    trimKindOf (c.set_stereo_trim_range p).trim = some k := by
  rcases hc : c.trim with _ | ⟨t | t⟩
  · simp [hc, trimKindOf] at h
  · simp only [hc, trimKindOf, Option.some.injEq] at h
    simp [ExtChannel.set_stereo_trim_range, hc, trimKindOf, h]
  · simp only [hc, trimKindOf, Option.some.injEq] at h
    simp [ExtChannel.set_stereo_trim_range, hc, trimKindOf, h]

/-- Canonical form of one channel update: which field it writes and with
what payload. Used to factor ExtChannel::update into a pure state
transformer computed from the key and value alone. The 48V and connection
keys map to setPhase because the source writes the phase field for them. -/
inductive ChanOp where
  | setDefaultName (s : Option Str)
  | setName (s : Option Str)
  | setSrc (s : Option Str)
  | monoTrim (n : Int)
  | monoRange (p : Int × Int)
  | stereoTrim (n : Int)
  | stereoRange (p : Int × Int)
  | setPad (b : Bool)
  | setPhase (b : Bool)
  | chNoop
deriving DecidableEq

/-- Application of a canonical channel operation to a channel. -/
def applyChanOp : ChanOp → ExtChannel → ExtChannel
  | .setDefaultName s, c => { c with default_name := s }
  | .setName s, c => { c with name := s }
  | .setSrc s, c => { c with src := s }
  | .monoTrim n, c => c.set_mono_trim n
  | .monoRange p, c => c.set_mono_trim_range p
  | .stereoTrim n, c => c.set_stereo_trim n
  | .stereoRange p, c => c.set_stereo_trim_range p
  | .setPad b, c => { c with pad := some b }
  | .setPhase b, c => { c with phase := some b }
  | .chNoop, c => c

/-- Canonical operation denoted by a channel update key and value; mirrors
the dispatch and conversions of ExtChannel::update exactly. -/
def chanOpOf (key : List Str) (v : Value) : Except ParseError ChanOp :=
  match key with
  | [] => .error .panicked
  | k0 :: _ =>
    if k0 = "defaultName".data then .ok (.setDefaultName (valueToOptString v))
    else if k0 = "name".data then .ok (.setName (valueToOptString v))
    else if k0 = "src".data then .ok (.setSrc (valueToOptString v))
    else if k0 = "trim".data then (valueToI32 v).map .monoTrim
    else if k0 = "trimRange".data then (valueToRange v).map .monoRange
    else if k0 = "stereoTrim".data then (valueToI32 v).map .stereoTrim
    else if k0 = "stereoTrimRange".data then (valueToRange v).map .stereoRange
    else if k0 = "pad".data then (valueToBool v).map .setPad
    else if k0 = "phase".data then (valueToBool v).map .setPhase
    else if k0 = "48V".data then (valueToBool v).map .setPhase
    else if k0 = "connection".data then (valueToBool v).map .setPhase
    else .ok .chNoop

/-- ExtChannel::update factors through the canonical operation: the state
enters only through the final application. -/
theorem update_eq_chanOp (c : ExtChannel) (key : List Str) (v : Value) :
    c.update key v = (chanOpOf key v).map (fun op => applyChanOp op c) := by
  cases key with
  | nil => rfl
  | cons k0 ks =>
    unfold ExtChannel.update chanOpOf
    dsimp only
    by_cases h1 : k0 = ("defaultName").data
    · simp only [if_pos h1]
      rfl
    · simp only [if_neg h1]
      by_cases h2 : k0 = ("name").data
      · simp only [if_pos h2]
        rfl
      · simp only [if_neg h2]
        by_cases h3 : k0 = ("src").data
        · simp only [if_pos h3]
          rfl
        · simp only [if_neg h3]
          by_cases h4 : k0 = ("trim").data
          · simp only [if_pos h4]
            cases valueToI32 v <;> rfl
          · simp only [if_neg h4]
            by_cases h5 : k0 = ("trimRange").data
            · simp only [if_pos h5]
              cases valueToRange v <;> rfl
            · simp only [if_neg h5]
              by_cases h6 : k0 = ("stereoTrim").data
              · simp only [if_pos h6]
                cases valueToI32 v <;> rfl
              · simp only [if_neg h6]
                by_cases h7 : k0 = ("stereoTrimRange").data
                · simp only [if_pos h7]
                  cases valueToRange v <;> rfl
                · simp only [if_neg h7]
                  by_cases h8 : k0 = ("pad").data
                  · simp only [if_pos h8]
                    cases valueToBool v <;> rfl
                  · simp only [if_neg h8]
                    by_cases h9 : k0 = ("phase").data
                    · simp only [if_pos h9]
                      cases valueToBool v <;> rfl
                    · simp only [if_neg h9]
                      by_cases h10 : k0 = ("48V").data
                      · simp only [if_pos h10]
                        cases valueToBool v <;> rfl
                      · simp only [if_neg h10]
                        by_cases h11 : k0 = ("connection").data
                        · simp only [if_pos h11]
                          cases valueToBool v <;> rfl
                        · simp only [if_neg h11]
                          rfl

/-- Canonical channel operations never change an already-observed trim
kind. -/
theorem trimKindOf_applyChanOp (op : ChanOp) (c : ExtChannel) (k : TrimKind)
    (h : trimKindOf c.trim = some k) :
    trimKindOf (applyChanOp op c).trim = some k := by
  cases op with
  | setDefaultName s => simpa [applyChanOp] using h
  | setName s => simpa [applyChanOp] using h
  | setSrc s => simpa [applyChanOp] using h
  | monoTrim n => exact trimKindOf_set_mono_trim c n k h
  | monoRange p => exact trimKindOf_set_mono_trim_range c p k h
  | stereoTrim n => exact trimKindOf_set_stereo_trim c n k h
  | stereoRange p => exact trimKindOf_set_stereo_trim_range c p k h
  | setPad b => simpa [applyChanOp] using h
  | setPhase b => simpa [applyChanOp] using h
  | chNoop => simpa [applyChanOp] using h

/-- One successful channel update never changes an already-observed trim
kind. -/
theorem trimKindOf_update (c : ExtChannel) (key : List Str) (v : Value) (k : TrimKind)
    (hk : trimKindOf c.trim = some k) (c2 : ExtChannel)
    (h : c.update key v = .ok c2) :
    trimKindOf c2.trim = some k := by
  rw [update_eq_chanOp] at h
  obtain ⟨op, _, hfc⟩ := except_map_eq_ok _ _ _ h
  exact hfc ▸ trimKindOf_applyChanOp op c k hk

/-- Repeated application of the channel update routine, propagating the
first error, as consecutive live Updates for one channel do. -/
def chApplySeq (c : ExtChannel) : List (List Str × Value) → Except ParseError ExtChannel
  | [] => .ok c
  | (key, v) :: rest =>
    match c.update key v with
    | .error er => .error er
    | .ok cc => chApplySeq cc rest

/-- C9: once a channel trim variant (mono or stereo) has been observed, no
sequence of channel updates that completes successfully ever changes it to
the other variant: the mono setters leave a stereo trim untouched and the
stereo setters leave a mono trim untouched, so the first-observed variant
is fixed for the channel lifetime. -/
theorem c9_trim_variant_fixed (c : ExtChannel) (us : List (List Str × Value))
    (k : TrimKind) (c2 : ExtChannel)
    (hk : trimKindOf c.trim = some k)
    (h : chApplySeq c us = .ok c2) :
    trimKindOf c2.trim = some k := by
  induction us generalizing c with
  | nil => cases h; exact hk
  | cons u rest ih =>
    obtain ⟨key, v⟩ := u
    unfold chApplySeq at h
    rcases hu : c.update key v with er | cc
    · rw [hu] at h; cases h
    · rw [hu] at h
      exact ih cc (trimKindOf_update c key v k hk cc hu) h

/-- Concrete channel used by the C9 witness: a mono trim is present. -/
def c9wChan : ExtChannel :=
  { index := 0, default_name := none, name := none, src := none,
    trim := some (.mono ⟨1, (0, 0)⟩), pad := none, phase := none,
    phantom_power := none, connection := none }

/-- Witness for C9: a mono-trim channel stays mono across a trim range
update followed by an attempted stereo trim write. -/
theorem c9_trim_variant_fixed_witness :
    trimKindOf
      { c9wChan with trim := some (.mono ⟨1, (0, 5)⟩) }.trim = some TrimKind.mono :=
  c9_trim_variant_fixed c9wChan
    [([("trimRange".data)], Value.pair [("0".data), ("5".data)]),
     ([("stereoTrim".data)], Value.int 3)]
    TrimKind.mono
    { c9wChan with trim := some (.mono ⟨1, (0, 5)⟩) }
    (by decide) (by rfl)

/-! Model of request.rs. -/

/-- Request from request.rs: a pending write of a value at a key. -/
structure Request where
  key : Str
  val : Value

/-- Add for Request, request.rs lines 7 to 16: the keys join with a slash
and the value of the right operand wins. -/
def Request.add (a b : Request) : Request :=
  ⟨a.key ++ '/' :: b.key, b.val⟩

instance : Add Request := ⟨Request.add⟩

/-- C10: Request concatenation is associative: the key fields join
left-to-right with slashes, which append associatively, and the value is
taken from the rightmost operand either way. -/
theorem c10_request_add_assoc (a b c : Request) : a + b + c = a + (b + c) := by
  show Request.add (Request.add a b) c = Request.add a (Request.add b c)
  simp [Request.add, List.append_assoc]


/-! Canonical-operation machinery for the bank level, used by the C6
equivalence and order-independence development. -/

/-- Canonical form of one bank update: which bank field it writes, or which
channel operation it routes, computed from the key and value alone. -/
inductive BankOp where
  | setBName (s : Str)
  | setNum (n : Nat)
  | setMax (n : Nat)
  | setUser (n : Nat)
  | setCalc (n : Nat)
  | setSmux (s : Str)
  | chOp (ci : Nat) (op : ChanOp)
  | bankNoop
deriving DecidableEq

/-- Application of a canonical bank operation to a bank. -/
def applyBankOp : BankOp → ChannelBank → ChannelBank
  | .setBName s, b => { b with name := some s }
  | .setNum n, b => { b with num_channels := n }
  | .setMax n, b => { b with max_channels := n }
  | .setUser n, b => { b with user_channels := n }
  | .setCalc n, b => { b with currenty_active_channels := n }
  | .setSmux s, b => { b with smux := some s }
  | .chOp ci op, b =>
    { b with channels := fun n =>
        if n = ci then
          some (applyChanOp op ((b.channels ci).getD (defaultExtChannel ci)))
        else b.channels n }
  | .bankNoop, b => b

/-- Canonical operation denoted by a bank update key and value; mirrors the
dispatch and conversions of ChannelBank::update exactly. -/
def bankOpOf (key : List Str) (v : Value) : Except ParseError BankOp :=
  match key with
  | [] => .error .panicked
  | k0 :: rest =>
    if k0 = "name".data then .ok (.setBName (valueToString v))
    else if k0 = "numCh".data then (valueToU32 v).map .setNum
    else if k0 = "maxCh".data then (valueToU32 v).map .setMax
    else if k0 = "userCh".data then (valueToU32 v).map .setUser
    else if k0 = "calcCh".data then (valueToU32 v).map .setCalc
    else if k0 = "smux".data then .ok (.setSmux (valueToString v))
    else if k0 = "ch".data then
      match rest with
      | i :: _ :: _ =>
        match parseU32 i with
        | none => .error .parseIntError
        | some idx => (chanOpOf (rest.drop 1) v).map (.chOp idx)
      | _ => .error .notEnoughDataInSegment
    else .ok .bankNoop

/-- ChannelBank::update factors through the canonical bank operation. -/
theorem bank_update_eq_bankOp (b : ChannelBank) (key : List Str) (v : Value) :
    b.update key v = (bankOpOf key v).map (fun op => applyBankOp op b) := by
  cases key with
  | nil => rfl
  | cons k0 rest =>
    unfold ChannelBank.update bankOpOf
    dsimp only
    by_cases h1 : k0 = ("name").data
    · simp only [if_pos h1]
      rfl
    · simp only [if_neg h1]
      by_cases h2 : k0 = ("numCh").data
      · simp only [if_pos h2]
        cases valueToU32 v <;> rfl
      · simp only [if_neg h2]
        by_cases h3 : k0 = ("maxCh").data
        · simp only [if_pos h3]
          cases valueToU32 v <;> rfl
        · simp only [if_neg h3]
          by_cases h4 : k0 = ("userCh").data
          · simp only [if_pos h4]
            cases valueToU32 v <;> rfl
          · simp only [if_neg h4]
            by_cases h5 : k0 = ("calcCh").data
            · simp only [if_pos h5]
              cases valueToU32 v <;> rfl
            · simp only [if_neg h5]
              by_cases h6 : k0 = ("smux").data
              · simp only [if_pos h6]
                rfl
              · simp only [if_neg h6]
                by_cases h7 : k0 = ("ch").data
                · simp only [if_pos h7]
                  cases rest with
                  | nil => rfl
                  | cons i rest2 =>
                    cases rest2 with
                    | nil => rfl
                    | cons j rest3 =>
                      dsimp only
                      cases hpi : parseU32 i with
                      | none => rfl
                      | some idx =>
                        simp only [update_eq_chanOp]
                        cases hop : chanOpOf ((i :: j :: rest3).drop 1) v <;> rfl
                · simp only [if_neg h7]
                  rfl

/-- Routed form of one cache entry at the banks level: skipped, or a bank
index with its type and canonical operation. -/
abbrev BankUpd := Option (Nat × ChannelBankType × BankOp)

/-- Application of a routed entry to the bank map: creates the bank on
first reference, then applies the canonical bank operation at its index. -/
def applyBankUpd : BankUpd → Banks → Banks
  | none, m => m
  | some (i, t, op), m =>
    fun n =>
      if n = i then some (applyBankOp op ((m i).getD (defaultChannelBank i t))) else m n

/-- Routed form denoted by one cache entry under a prefix; mirrors the
parsing done by the build loop body exactly. -/
def entryOp (pfx : Str) (e : Str × Value) : Except ParseError BankUpd :=
  match uriSegments e.1 with
  | .error er => .error er
  | .ok segs =>
    match segs with
    | _ :: b :: c :: rest =>
      if b = pfx then
        match parseU32 c with
        | none => .error .parseIntError
        | some index =>
          match ChannelBankType.ofStr pfx with
          | .error er => .error er
          | .ok t => (bankOpOf rest e.2).map (fun op => some (index, t, op))
      else .ok none
    | _ => .ok none

/-- The build loop body factors through the routed entry form: the current
bank map enters only through the final application, so whether an entry
fails, and with which error, is independent of the map state. -/
theorem applyEntry_eq_entryOp (pfx : Str) (m : Banks) (e : Str × Value) :
    applyEntry pfx m e = (entryOp pfx e).map (fun u => applyBankUpd u m) := by
  unfold applyEntry entryOp
  cases hu : uriSegments e.1 with
  | error er => rfl
  | ok segs =>
  rcases segs with _ | ⟨a, _ | ⟨b, _ | ⟨c, rest⟩⟩⟩ <;>
    simp only []
  · rfl
  · rfl
  · rfl
  · by_cases hb : b = pfx
    · simp only [if_pos hb]
      cases hpc : parseU32 c with
      | none => rfl
      | some index =>
        cases hty : ChannelBankType.ofStr pfx with
        | error er => rfl
        | ok t =>
          dsimp only
          rw [bank_update_eq_bankOp]
          cases hop : bankOpOf rest e.2 <;> rfl
    · simp only [if_neg hb]
      rfl


/-- Generic ok test on an Except value. -/
def isOkE {ε α : Type} : Except ε α → Bool
  | .ok _ => true
  | .error _ => false

theorem isOkE_ex {ε α : Type} {x : Except ε α} (h : isOkE x = true) :
    ∃ a, x = .ok a := by
  cases x with
  | ok a => exact ⟨a, rfl⟩
  | error e => simp [isOkE] at h

/-- State transformer of one entry: the applied routed form on success and
the identity on a (state-independent) failure. -/
def entryFn (pfx : Str) (e : Str × Value) : Banks → Banks :=
  match entryOp pfx e with
  | .ok u => applyBankUpd u
  | .error _ => id

/-- A successful build means every entry routed successfully. -/
theorem buildGo_all_ok {pfx : Str} {l : List (Str × Value)} {m mm : Banks}
    (h : buildGo pfx m l = .ok mm) : ∀ e ∈ l, ∃ u, entryOp pfx e = .ok u := by
  induction l generalizing m with
  | nil => intro e he; exact absurd he (List.not_mem_nil e)
  | cons e es ih =>
    intro f hf
    unfold buildGo at h
    rw [applyEntry_eq_entryOp] at h
    cases hu : entryOp pfx e with
    | error er => rw [hu] at h; exact absurd h (by simp [Except.map])
    | ok u =>
      rw [hu] at h
      simp only [Except.map] at h
      rcases List.mem_cons.mp hf with rfl | hf2
      · exact ⟨u, hu⟩
      · exact ih h f hf2

/-- When every entry routes successfully, build is the plain fold of the
entry transformers. -/
theorem buildGo_eq_foldl {pfx : Str} {l : List (Str × Value)} (m : Banks)
    (h : ∀ e ∈ l, ∃ u, entryOp pfx e = .ok u) :
    buildGo pfx m l = .ok (l.foldl (fun acc e => entryFn pfx e acc) m) := by
  induction l generalizing m with
  | nil => rfl
  | cons e es ih =>
    obtain ⟨u, hu⟩ := h e (List.mem_cons_self e es)
    have hes : ∀ f ∈ es, ∃ u2, entryOp pfx f = .ok u2 :=
      fun f hf => h f (List.mem_cons_of_mem e hf)
    have hfn : entryFn pfx e m = applyBankUpd u m := by
      simp [entryFn, hu]
    unfold buildGo
    rw [applyEntry_eq_entryOp, hu]
    simp only [Except.map, List.foldl_cons]
    rw [ih _ hes, hfn]

/-- Replaying entries one at a time is the same computation as the build
loop from the same starting map. -/
theorem replay_eq_buildGo (pfx : Str) (l : List (Str × Value)) (m : Banks) :
    replayUpdates pfx m l = buildGo pfx m l := by
  induction l generalizing m with
  | nil => rfl
  | cons e es ih =>
    unfold replayUpdates buildGo
    cases applyEntry pfx m e with
    | error er => rfl
    | ok mm => exact ih mm

/-- Field slot written by a canonical channel operation; the phase slot
covers the phase, 48V and connection keys, which all write phase. -/
def chanSlot : ChanOp → Option Nat
  | .setDefaultName _ => some 0
  | .setName _ => some 1
  | .setSrc _ => some 2
  | .monoTrim _ => some 3
  | .monoRange _ => some 4
  | .stereoTrim _ => some 5
  | .stereoRange _ => some 6
  | .setPad _ => some 7
  | .setPhase _ => some 8
  | .chNoop => none

def slotMono (n : Nat) : Bool := n == 3 || n == 4

def slotStereo (n : Nat) : Bool := n == 5 || n == 6

/-- Two channel operations commute when they write different slots and are
not a mono-trim and a stereo-trim operation on the same channel (the
fixed-variant behaviour of the trim setters makes that pair order
dependent). -/
def chanCompat (a b : ChanOp) : Bool :=
  match chanSlot a, chanSlot b with
  | some x, some y =>
    x != y && !(slotMono x && slotStereo y) && !(slotStereo x && slotMono y)
  | _, _ => true

theorem smt_smtr_comm (c : ExtChannel) (n : Int) (p : Int × Int) :
    (c.set_mono_trim_range p).set_mono_trim n =
      (c.set_mono_trim n).set_mono_trim_range p := by
  rcases hc : c.trim with _ | ⟨t | t⟩ <;>
    simp [ExtChannel.set_mono_trim, ExtChannel.set_mono_trim_range, hc,
      defaultTrimValue]

theorem sst_sstr_comm (c : ExtChannel) (n : Int) (p : Int × Int) :
    (c.set_stereo_trim_range p).set_stereo_trim n =
      (c.set_stereo_trim n).set_stereo_trim_range p := by
  rcases hc : c.trim with _ | ⟨t | t⟩ <;>
    simp [ExtChannel.set_stereo_trim, ExtChannel.set_stereo_trim_range, hc,
      defaultTrimValue]

/-- Compatible channel operations commute. -/
theorem chanOp_comm (a b : ChanOp) (h : chanCompat a b = true) (c : ExtChannel) :
    applyChanOp a (applyChanOp b c) = applyChanOp b (applyChanOp a c) := by
  cases a <;> cases b <;>
    first
    | exact Bool.noConfusion h
    | rfl
    | exact smt_smtr_comm c _ _
    | exact (smt_smtr_comm c _ _).symm
    | exact sst_sstr_comm c _ _
    | exact (sst_sstr_comm c _ _).symm
    | (rcases hc : c.trim with _ | ⟨t | t⟩ <;>
        simp [applyChanOp, ExtChannel.set_mono_trim, ExtChannel.set_mono_trim_range,
          ExtChannel.set_stereo_trim, ExtChannel.set_stereo_trim_range, hc,
          defaultTrimValue])

/-- Componentwise equality of banks. -/
theorem bankEq (b1 b2 : ChannelBank)
    (h1 : b1.index = b2.index) (h2 : b1.name = b2.name) (h3 : b1.t = b2.t)
    (h4 : b1.smux = b2.smux) (h5 : b1.num_channels = b2.num_channels)
    (h6 : b1.max_channels = b2.max_channels) (h7 : b1.user_channels = b2.user_channels)
    (h8 : b1.currenty_active_channels = b2.currenty_active_channels)
    (h9 : b1.channels = b2.channels) : b1 = b2 := by
  cases b1
  cases b2
  simp only [ChannelBank.mk.injEq]
  exact ⟨h1, h2, h3, h4, h5, h6, h7, h8, h9⟩

/-- Field slot written by a canonical bank operation. -/
def scalarSlot : BankOp → Nat
  | .setBName _ => 0
  | .setNum _ => 1
  | .setMax _ => 2
  | .setUser _ => 3
  | .setCalc _ => 4
  | .setSmux _ => 5
  | .chOp _ _ => 6
  | .bankNoop => 7

/-- Two bank operations commute when they write different bank fields, or
route compatible channel operations, or target different channels. -/
def bankCompat (a b : BankOp) : Bool :=
  match a, b with
  | .bankNoop, _ => true
  | _, .bankNoop => true
  | .chOp i x, .chOp j y => i != j || chanCompat x y
  | .chOp _ _, _ => true
  | _, .chOp _ _ => true
  | x, y => scalarSlot x != scalarSlot y

theorem chOp_chOp_comm (i j : Nat) (x y : ChanOp) (bk : ChannelBank)
    (h : (i != j || chanCompat x y) = true) :
    applyBankOp (.chOp i x) (applyBankOp (.chOp j y) bk) =
      applyBankOp (.chOp j y) (applyBankOp (.chOp i x) bk) := by
  by_cases hij : i = j
  · subst hij
    have hc : chanCompat x y = true := by simpa using h
    apply bankEq <;> try rfl
    funext n
    by_cases hn : n = i
    · subst hn
      simp [applyBankOp, chanOp_comm x y hc]
    · simp [applyBankOp, hn]
  · have hji : ¬j = i := fun hh => hij hh.symm
    apply bankEq <;> try rfl
    funext n
    by_cases hni : n = i
    · subst hni
      simp [applyBankOp, hij, hji]
    · by_cases hnj : n = j
      · subst hnj
        simp [applyBankOp, hij, hji]
      · simp [applyBankOp, hni, hnj]

/-- Compatible bank operations commute. -/
theorem bankOp_comm (a b : BankOp) (h : bankCompat a b = true) (bk : ChannelBank) :
    applyBankOp a (applyBankOp b bk) = applyBankOp b (applyBankOp a bk) := by
  cases a <;> cases b <;>
    first
    | exact Bool.noConfusion h
    | rfl
    | exact chOp_chOp_comm _ _ _ _ bk h

/-- Two routed entries commute when one is skipped, or they target
different bank indices, or the same bank with the same type and compatible
bank operations. -/
def updCompat : BankUpd → BankUpd → Bool
  | some (i, t1, o1), some (j, t2, o2) => i != j || (t1 == t2 && bankCompat o1 o2)
  | _, _ => true

theorem bankUpd_comm (u1 u2 : BankUpd) (h : updCompat u1 u2 = true) (m : Banks) :
    applyBankUpd u1 (applyBankUpd u2 m) = applyBankUpd u2 (applyBankUpd u1 m) := by
  match u1, u2 with
  | none, _ => rfl
  | some (i, t1, o1), none => rfl
  | some (i, t1, o1), some (j, t2, o2) =>
    by_cases hij : i = j
    · subst hij
      have h2 : (t1 == t2 && bankCompat o1 o2) = true := by
        simpa [updCompat] using h
      rw [Bool.and_eq_true, beq_iff_eq] at h2
      obtain ⟨ht12, hcp⟩ := h2
      subst ht12
      funext n
      by_cases hn : n = i
      · subst hn
        simp [applyBankUpd, bankOp_comm o1 o2 hcp]
      · simp [applyBankUpd, hn]
    · have hji : ¬j = i := fun hh => hij hh.symm
      funext n
      by_cases hni : n = i
      · subst hni
        simp [applyBankUpd, hij, hji]
      · by_cases hnj : n = j
        · subst hnj
          simp [applyBankUpd, hij, hji]
        · simp [applyBankUpd, hni, hnj]

/-- Compatibility of two cache entries under a prefix: their routed forms
are compatible (vacuously true when either fails to route). -/
def entriesCompatible (pfx : Str) (a b : Str × Value) : Bool :=
  match entryOp pfx a, entryOp pfx b with
  | .ok u1, .ok u2 => updCompat u1 u2
  | _, _ => true

/-- Entry transformers commute for compatible entries, and trivially for
entries that route identically. -/
theorem entryFn_comm (pfx : Str) (a b : Str × Value)
    (h : entriesCompatible pfx a b = true ∨ entryOp pfx a = entryOp pfx b)
    (m : Banks) :
    entryFn pfx a (entryFn pfx b m) = entryFn pfx b (entryFn pfx a m) := by
  unfold entryFn
  cases ha : entryOp pfx a with
  | error e1 => cases hb : entryOp pfx b with
    | error e2 => rfl
    | ok u2 => rfl
  | ok u1 =>
    cases hb : entryOp pfx b with
    | error e2 => rfl
    | ok u2 =>
      rcases h with hcomp | heq
      · unfold entriesCompatible at hcomp
        rw [ha, hb] at hcomp
        exact bankUpd_comm u1 u2 hcomp m
      · rw [ha, hb] at heq
        cases heq
        rfl

/-- Scope test of the C6 claim: keys under the prefix ext/ibank/0/. -/
def isIbankZeroKey (ke : Str) : Bool :=
  match uriSegments ke with
  | .ok (a :: b :: c :: _) => a == "ext".data && b == "ibank".data && c == "0".data
  | _ => false

/-- C6 amended: for entries under ext/ibank/0/ whose pairwise routed forms
are compatible (no two entries write the same target field — where phase,
48V and connection all write the phase field, and a path repeating a field
key counts as the same target — and no channel receives both mono-trim and
stereo-trim entries) or identical, a successful seed via build equals the
one-at-a-time replay of any permutation of the same entries through the
per-entry update routine from an empty projector. -/
theorem c6_build_replay_order_independent (l l2 : List (Str × Value))
    (hperm : l2.Perm l)
    (_hscope : ∀ e ∈ l, isIbankZeroKey e.1 = true)
    (hcomp : ∀ a ∈ l, ∀ b ∈ l,
      entriesCompatible ("ibank".data) a b = true ∨
        entryOp ("ibank".data) a = entryOp ("ibank".data) b)
    (hok : isOkE (build ("ibank".data) l) = true) :
    replayUpdates ("ibank".data) emptyBanks l2 = build ("ibank".data) l := by
  obtain ⟨mm, hmm⟩ := isOkE_ex hok
  have hall : ∀ e ∈ l, ∃ u, entryOp ("ibank".data) e = .ok u := buildGo_all_ok hmm
  have hall2 : ∀ e ∈ l2, ∃ u, entryOp ("ibank".data) e = .ok u :=
    fun e he => hall e (hperm.subset he)
  rw [replay_eq_buildGo, buildGo_eq_foldl _ hall2]
  show _ = buildGo ("ibank".data) emptyBanks l
  rw [buildGo_eq_foldl _ hall]
  exact congrArg Except.ok
    (hperm.foldl_eq'
      (fun x hx y hy z =>
        entryFn_comm ("ibank".data) y x
          (hcomp y (hperm.subset hy) x (hperm.subset hx)) z)
      emptyBanks)

/-- Name of bank zero observed through a build or replay result. -/
def c6ObsName (r : Except ParseError Banks) : Option (Option Str) :=
  match r with
  | .ok m => (m 0).map (fun b => b.name.getD [])
  | .error _ => none

/-- Entry writing the bank name directly. -/
def c6eA : Str × Value := (("ext/ibank/0/name".data), .str ("A".data))

/-- Entry whose path repeats the name key with a trailing segment; the
dispatch reads only the first remaining segment, so it also writes the bank
name. -/
def c6eB : Str × Value := (("ext/ibank/0/name/x".data), .str ("B".data))

/-- C6 counterexample: two distinct cache paths under ext/ibank/0/ with no
trim keys at all, seeded in one order via build and replayed in the other
order through the same routine, produce different Bank 0 state (the second
path also writes the name field), so the claimed order-independence modulo
only the trim-variant invariant is false. -/
theorem c6_counterexample :
    c6ObsName (build ("ibank".data) [c6eA, c6eB]) = some (some ("B".data)) ∧
    c6ObsName (replayUpdates ("ibank".data) emptyBanks [c6eB, c6eA]) =
      some (some ("A".data)) ∧
    ("B".data : Str) ≠ ("A".data : Str) :=
  ⟨by rfl, by rfl, by decide⟩

/-- First witness entry: a bank name write. -/
def c6w1 : Str × Value := (("ext/ibank/0/name".data), .str ("N".data))

/-- Second witness entry: a mono trim write on channel one. -/
def c6w2 : Str × Value := (("ext/ibank/0/ch/1/trim".data), .int 3)

/-- Witness for the amended C6 theorem: two compatible entries replayed in
swapped order reproduce the seeded state. -/
theorem c6_build_replay_order_independent_witness :
    replayUpdates ("ibank".data) emptyBanks [c6w2, c6w1] =
      build ("ibank".data) [c6w1, c6w2] :=
  c6_build_replay_order_independent [c6w1, c6w2] [c6w2, c6w1]
    (List.Perm.swap c6w1 c6w2 [])
    (by decide) (by decide) (by decide)

/-! Model of device.rs: the Update type, the flat cache, the write path,
the poll entry loop and the update-consumer task. -/

/-- Update from device.rs lines 79 to 83: a cache change tagged by origin. -/
inductive Update where
  | internal (k : Str) (v : Value)
  | external (k : Str) (v : Value)

/-- Update::any from device.rs lines 119 to 126. -/
def Update.any : Update → Str × Value
  | .internal k v => (k, v)
  | .external k v => (k, v)

/-- The flat cache DashMap, modelled as a function map. -/
def Cache := Str → Option Value

def emptyCache : Cache := fun _ => none

/-- DashMap::insert on the cache model. -/
def cacheInsert (c : Cache) (k : Str) (v : Value) : Cache :=
  fun n => if n = k then some v else c n

/-- DeviceError from device.rs, restricted to the constructors the
modelled code paths produce. -/
inductive DeviceError where
  | badResponse (status : Nat) (body : Str)
  | valueParsingError (e : ValueError)
  | definitionParsingError (e : ParseError)
  | keyParseError
  | parseIntError
  | uriParseError
deriving DecidableEq

/-- Success loop of Device::set_keys, device.rs lines 455 to 460: every
entry is inserted into the cache and, when the update bus exists, one
Internal update is emitted for it, in entry order. The broadcast send is
modelled as always accepted: during a connection the consumer task holds a
live receiver, so the send error path does not arise. -/
def setKeysApply (cache : Cache) (hasBus : Bool) :
    List (Str × Value) → Cache × List Update
  | [] => (cache, [])
  | (k, v) :: rest =>
    let out := setKeysApply (cacheInsert cache k v) hasBus rest
    (out.1, (if hasBus then [Update.internal k v] else []) ++ out.2)

/-- Outcome of one Device::set_keys call: the final cache, the emitted
updates and the returned result. -/
structure SetKeysOut where
  cache : Cache
  emitted : List Update
  result : Except DeviceError Unit

/-- Device::set_keys from device.rs lines 435 to 468. The transport is out
of scope, so the device response enters as an explicit status and body; 200
and 204 are the success statuses the source matches. On success the cache
and bus are updated per entry; on any other status nothing is touched and
the error carries the status and body. -/
def set_keys (cache : Cache) (hasBus : Bool) (data : List (Str × Value))
    (status : Nat) (body : Str) : SetKeysOut :=
  if status = 200 ∨ status = 204 then
    let out := setKeysApply cache hasBus data
    ⟨out.1, out.2, .ok ()⟩
  else
    ⟨cache, [], .error (.badResponse status body)⟩

theorem setKeysApply_spec (data : List (Str × Value)) (cache : Cache) :
    setKeysApply cache true data =
      (data.foldl (fun c e => cacheInsert c e.1 e.2) cache,
       data.map (fun e => Update.internal e.1 e.2)) := by
  induction data generalizing cache with
  | nil => rfl
  | cons e rest ih =>
    obtain ⟨k, v⟩ := e
    simp [setKeysApply, ih]

/-- C1: the write path is all-or-nothing on the response status. On a
success status (200 or 204) every path of the batch is inserted into the
flat cache and exactly one Internal update per entry is emitted, in order;
on any other status the cache is untouched, nothing is emitted, and the
returned error carries the response status and body. -/
theorem c1_set_keys_all_or_nothing (cache : Cache) (data : List (Str × Value))
    (status : Nat) (body : Str) :
    (status = 200 ∨ status = 204 →
      set_keys cache true data status body =
        ⟨data.foldl (fun c e => cacheInsert c e.1 e.2) cache,
         data.map (fun e => Update.internal e.1 e.2), .ok ()⟩) ∧
    (¬(status = 200 ∨ status = 204) →
      set_keys cache true data status body =
        ⟨cache, [], .error (.badResponse status body)⟩) := by
  constructor
  · intro hs
    simp [set_keys, hs, setKeysApply_spec]
  · intro hs
    simp [set_keys, hs]

/-- Witness for C1: a two-entry batch against a 200 and against a 500. -/
theorem c1_set_keys_all_or_nothing_witness :
    (set_keys emptyCache true
        [(("ext/obank/0/fader".data), Value.int 1), (("ext/obank/0/pad".data), Value.bool true)]
        200 ("".data) =
      ⟨[(("ext/obank/0/fader".data), Value.int 1),
        (("ext/obank/0/pad".data), Value.bool true)].foldl
          (fun c e => cacheInsert c e.1 e.2) emptyCache,
       [Update.internal ("ext/obank/0/fader".data) (Value.int 1),
        Update.internal ("ext/obank/0/pad".data) (Value.bool true)], .ok ()⟩) ∧
    (set_keys emptyCache true
        [(("ext/obank/0/fader".data), Value.int 1)] 500 ("boom".data) =
      ⟨emptyCache, [], .error (.badResponse 500 ("boom".data))⟩) :=
  ⟨(c1_set_keys_all_or_nothing emptyCache _ 200 ("".data)).1 (Or.inl rfl),
   (c1_set_keys_all_or_nothing emptyCache _ 500 ("boom".data)).2 (by decide)⟩

/-- Generic JSON scalar as serde_json::Value delivers it to the poll loop. -/
inductive JsonVal where
  | jnull
  | jbool (b : Bool)
  | jint (n : Int)
  | jfloat (f : Float)
  | jstr (s : Str)
  | jarr
  | jobj

/-- TryFrom of a serde value for Value, value.rs lines 93 to 115: null,
arrays and objects are errors; numbers keep their kind (the u64 branch
beyond signed range is not distinguished; no claim touches it). -/
def valueTryFrom : JsonVal → Except ValueError Value
  | .jnull => .error .noValue
  | .jbool b => .ok (.bool b)
  | .jint n => .ok (.int n)
  | .jfloat f => .ok (.float f)
  | .jstr s => .ok (.str s)
  | .jarr => .error .wtf
  | .jobj => .error .wtf

/-- Conversion and decoding of one poll response entry, the right-hand side
of device.rs line 423: Value::try_from(item.1)?.decode(&item.0)?. -/
def decOf (p : Str × JsonVal) : Except ValueError Value :=
  (valueTryFrom p.2).bind (fun w => w.decode p.1)

/-- Entry loop of Device::poll, device.rs lines 422 to 426 (lib.rs lines
365 to 369 are the same loop with untagged bus items): each response entry
converts and decodes; the question-mark operators propagate the first
failure out of poll, abandoning the remaining entries; each successful
entry is inserted into the cache and emitted as an External update. The
conditional request, status check and etag handling are transport
collaborators, out of scope; HashMap iteration order is unspecified, so the
response entries are taken as an explicit list. -/
def pollApply (cache : Cache) :
    List (Str × JsonVal) → Cache × List Update × Except DeviceError Unit
  | [] => (cache, [], .ok ())
  | (k, jv) :: rest =>
    match decOf (k, jv) with
    | .error e => (cache, [], .error (.valueParsingError e))
    | .ok v =>
      let out := pollApply (cacheInsert cache k v) rest
      (out.1, Update.external k v :: out.2.1, out.2.2)

/-- C2 counterexample: a response whose first processed entry fails to
decode (a null scalar) aborts the whole batch: the remaining well-formed
entry is neither decoded, nor inserted, nor emitted, and poll returns the
error, which terminates the poll loop in connect. -/
theorem c2_counterexample :
    (pollApply emptyCache
        [(("a/b".data), JsonVal.jnull), (("c/d".data), JsonVal.jstr ("x".data))]).2 =
      ([], .error (.valueParsingError .noValue)) ∧
    (pollApply emptyCache
        [(("a/b".data), JsonVal.jnull), (("c/d".data), JsonVal.jstr ("x".data))]).1
        ("c/d".data) = none := by
  constructor <;> rfl

/-- C2 amended: a decode failure in one poll entry aborts the batch at that
entry: the entries processed before it (in iteration order) are decoded,
inserted and emitted as External updates in order, the failing entry and
every later entry are not applied or emitted, and poll returns the decode
error (on which the connect loop terminates). -/
theorem c2_decode_failure_aborts_batch (cache : Cache) (pre : List (Str × JsonVal))
    (k : Str) (jv : JsonVal) (post : List (Str × JsonVal)) (e : ValueError)
    (hpre : ∀ p ∈ pre, isOkE (decOf p) = true)
    (hfail : decOf (k, jv) = .error e) :
    pollApply cache (pre ++ (k, jv) :: post) =
      (pre.foldl (fun c p =>
          match decOf p with
          | .ok v => cacheInsert c p.1 v
          | .error _ => c) cache,
       pre.filterMap (fun p =>
          match decOf p with
          | .ok v => some (Update.external p.1 v)
          | .error _ => none),
       .error (.valueParsingError e)) := by
  induction pre generalizing cache with
  | nil =>
    simp only [List.nil_append, List.foldl_nil, List.filterMap_nil, pollApply, hfail]
  | cons p ps ih =>
    obtain ⟨v, hv⟩ := isOkE_ex (hpre p (List.mem_cons_self p ps))
    have hps : ∀ q ∈ ps, isOkE (decOf q) = true :=
      fun q hq => hpre q (List.mem_cons_of_mem p hq)
    obtain ⟨pk, pjv⟩ := p
    simp only [List.cons_append, pollApply, hv, List.append_eq]
    rw [ih (cacheInsert cache pk v) hps]
    simp only [List.foldl_cons, List.filterMap_cons, hv]

/-- Witness for the amended C2 theorem: one good entry, then a null, then
an abandoned entry. -/
theorem c2_decode_failure_aborts_batch_witness :
    pollApply emptyCache
        [(("g/h".data), JsonVal.jint 7),
         (("a/b".data), JsonVal.jnull),
         (("c/d".data), JsonVal.jstr ("x".data))] =
      ([(("g/h".data), JsonVal.jint 7)].foldl (fun c p =>
          match decOf p with
          | .ok v => cacheInsert c p.1 v
          | .error _ => c) emptyCache,
       [(("g/h".data), JsonVal.jint 7)].filterMap (fun p =>
          match decOf p with
          | .ok v => some (Update.external p.1 v)
          | .error _ => none),
       .error (.valueParsingError .noValue)) :=
  c2_decode_failure_aborts_batch emptyCache [(("g/h".data), JsonVal.jint 7)]
    ("a/b".data) JsonVal.jnull [(("c/d".data), JsonVal.jstr ("x".data))]
    ValueError.noValue (by decide) (by rfl)

/-- KeyType from device.rs lines 86 to 92. -/
inductive KeyType where
  | inputBank (i : Nat)
  | outputBank (i : Nat)
  | mixer
  | avb
  | notImplemented

/-- KeyType::convert_from_str from device.rs lines 94 to 117: parse the
key as a URI reference (the question-mark operator propagates a parse
failure as a device error), require more than two path segments, dispatch
on the first segment; under ext the third segment parses as the bank index
and the second as the bank direction. Returns the key type with the
segments (the source returns the parsed URIReference whose segments the
caller reads). -/
def convert_from_str (key : Str) : Except DeviceError (KeyType × List Str) :=
  match uriSegments key with
  | .error _ => .error .uriParseError
  | .ok (k0 :: k1 :: k2 :: rest) =>
    if k0 = "ext".data then
      match parseU32 k2 with
      | none => .error .parseIntError
      | some index =>
        match ChannelBankType.ofStr k1 with
        | .error er => .error (.definitionParsingError er)
        | .ok .input => .ok (.inputBank index, k0 :: k1 :: k2 :: rest)
        | .ok .output => .ok (.outputBank index, k0 :: k1 :: k2 :: rest)
    else if k0 = "avb".data then .ok (.avb, k0 :: k1 :: k2 :: rest)
    else if k0 = "mix".data then .ok (.mixer, k0 :: k1 :: k2 :: rest)
    else .ok (.notImplemented, k0 :: k1 :: k2 :: rest)
  | .ok _ => .error .keyParseError

/-- One iteration of the update-consumer task spawned by Device::connect,
device.rs lines 318 to 357. The source initializes BOTH local handles from
the input-bank map: line 319 clones self.input_banks into
update_output_bank, so updates parsed as output-bank keys are applied to
the input-banks map and the output-banks map is never touched. A bank
absent from the map is skipped; a failing bank update is unwrapped (a task
panic), modelled as none. -/
def consumerStep (inputBanks outputBanks : Banks) (upd : Update) :
    Option (Banks × Banks) :=
  let update_input_bank := inputBanks
  let update_output_bank := inputBanks
  let kv := upd.any
  match convert_from_str kv.1 with
  | .error _ => some (inputBanks, outputBanks)
  | .ok (tk, segs) =>
    match tk with
    | .inputBank index =>
      match update_input_bank index with
      | some bank =>
        match bank.update (segs.drop 3) kv.2 with
        | .ok b2 =>
          some (fun n => if n = index then some b2 else update_input_bank n, outputBanks)
        | .error _ => none
      | none => some (inputBanks, outputBanks)
    | .outputBank index =>
      match update_output_bank index with
      | some bank =>
        match bank.update (segs.drop 3) kv.2 with
        | .ok b2 =>
          some (fun n => if n = index then some b2 else update_output_bank n, outputBanks)
        | .error _ => none
      | none => some (inputBanks, outputBanks)
    | _ => some (inputBanks, outputBanks)

/-- Input-bank map with one default input bank at index zero. -/
def c7InBanks : Banks := fun n => if n = 0 then some (defaultChannelBank 0 .input) else none

/-- Output-bank map with one default output bank at index zero. -/
def c7OutBanks : Banks := fun n => if n = 0 then some (defaultChannelBank 0 .output) else none

/-- Update whose path parses as an output-bank key at index zero. -/
def c7Upd : Update := .external ("ext/obank/0/name".data) (.str ("X".data))

/-- C7: evaluating the consumer on an Update whose path parses as an
output-bank key shows the code routing it into the input-banks map: after
the step, input bank zero carries the new name and output bank zero is
unchanged, because update_output_bank is a clone of self.input_banks. -/
theorem c7_output_update_hits_input_banks :
    (consumerStep c7InBanks c7OutBanks c7Upd).map (fun p =>
      ((p.1 0).map (fun b => b.name), (p.2 0).map (fun b => b.name))) =
      some (some (some ("X".data)), some none) := by
  rfl

end Motu
